/- Verification of xnatutils (MonashBI/xnatutils, src/xnatutils.py).

   Shallow embedding of the identifier-resolution and retrieval/conversion
   pipeline: the static format table and extension sniffing, the `ls`
   datatype inference, the regular-expression matching used for session and
   scan filtering, converter discovery and selection, directory creation,
   and the per-scan retrieval loop of `get`.  Python strings are Lean
   `String`s, exceptions are `Except` errors carrying the data the source
   formats into its messages, and filesystem/subprocess effects are
   recorded as explicit action traces. -/
import Mathlib

namespace Xnatutils

/-- Splits a list of characters on a separator character; models Python
    `str.split(sep)` for a one-character separator (note `"".split(sep)`
    yields `['']`, hence the `[[]]` base). -/
def splitChar (c : Char) (s : List Char) : List (List Char) :=
  s.foldr
    (fun x acc =>
      if x = c then [] :: acc
      else
        match acc with
        | a :: rest => (x :: a) :: rest
        | [] => [[x]])
    [[]]

/-- Models `os.path.basename`: the part after the last '/'. -/
def basenameChars (s : List Char) : List Char :=
  (splitChar '/' s).getLastD []

/-- The static format table `data_format_exts` (xnatutils.py lines 14-28),
    kept in source order. -/
def data_format_exts : List (String × String) :=
  [("NIFTI", ".nii"), ("NIFTI_GZ", ".nii.gz"), ("MRTRIX", ".mif"),
   ("DICOM", ""), ("secondary", ""), ("TEXT_MATRIX", ".mat"),
   ("MRTRIX_GRAD", ".b"), ("FSL_BVECS", ".bvec"), ("FSL_BVALS", ".bval"),
   ("MATLAB", ".mat"), ("ANALYZE", ".img"), ("ZIP", ".zip"),
   ("RDATA", ".rdata"), ("DAT", ".dat")]

/-- Dictionary access `data_format_exts[df]` as an `Option`. -/
def lookupExt (df : String) : Option String :=
  (data_format_exts.find? (fun kv => kv.1 = df)).map (fun kv => kv.2)

/-- `label in data_format_exts` membership test (line 107). -/
def isKnownFormat (df : String) : Bool :=
  (lookupExt df).isSome

/-- `extract_extension` (lines 544-554): single trailing dot-component,
    except a trailing `gz` component is folded with the one before it. -/
def extract_extension (filename : String) : String :=
  let name_parts := splitChar '.' (basenameChars filename.toList)
  if name_parts.length = 1 then ""
  else
    let num_parts := if name_parts.getLastD [] = ['g', 'z'] then 2 else 1
    String.mk ('.' :: List.intercalate ['.']
      (name_parts.drop (name_parts.length - num_parts)))

/-- Payloads of the `XnatUtilsUsageError`s raised by the source; each
    constructor records the data formatted into the exception message. -/
inductive UsageMsg where
  | noMatchingFormat (ext filename : String)
  | noValidFormats (scanId scanType : String) (session : List String)
  | multipleFormats (scanName : String) (session : List String)
      (formats : List String)
  | converterNotAvailable (name : String)
  | installConverter (msgPart : String) (srcFormat : String)
      (convertTo : Option String)
  | datatypeRequired (ids : List String)
  | invalidIds (ids : List String)
  | idsNotAllowedForProject (ids : List String)
  | idsRequired (datatype : String)
deriving DecidableEq, Repr

/-- Python exceptions that the embedded code can raise. -/
inductive PyError where
  | usage (m : UsageMsg)
  | keyError (key : String)
  | nameError (name : String)
  | assertionError
deriving DecidableEq, Repr

/-- `get_data_format` (lines 557-564): first table entry (in source order)
    whose extension equals the filename's extracted extension. -/
def get_data_format (filename : String) : Except PyError String :=
  match data_format_exts.find? (fun kv => kv.2 = extract_extension filename) with
  | some kv => .ok kv.1
  | none => .error (.usage (.noMatchingFormat (extract_extension filename) filename))

/-- `get_extension` (lines 567-568): dictionary access, `none` models the
    `KeyError` case. -/
def get_extension (data_format : String) : Option String :=
  lookupExt data_format

/-- Characters accepted by the regex class `\w` (Python 2 `re`, no
    `re.UNICODE`): ASCII letters, digits and underscore. -/
def isWordChar (c : Char) : Bool :=
  c.isAlphanum || c = '_'

/-- `re.match(r'^\w+$', s)` as a Bool: nonempty and all word characters. -/
def matchesWordRe (s : String) : Bool :=
  !s.toList.isEmpty && s.toList.all isWordChar

/-- `is_regex` (lines 571-575) on a list of ids. -/
def is_regex (ids : List String) : Bool :=
  !(ids.all matchesWordRe)

/-- `i.count('_')` for a Python string. -/
def count_underscores (s : String) : Nat :=
  (s.toList.filter (fun c => c = '_')).length

/-- The datatype-inference prelude of `ls` (lines 267-298).  Python's
    `max` over the non-empty id list is written as a fold from 0, which
    agrees with it on natural numbers. -/
def inferDatatype (datatype : Option String) (xnat_id : List String) :
    Except PyError String :=
  match datatype with
  | none =>
    if xnat_id.isEmpty then .ok "project"
    else if is_regex xnat_id then .error (.usage (.datatypeRequired xnat_id))
    else
      let num_underscores := (xnat_id.map count_underscores).foldl max 0
      if num_underscores = 0 then .ok "subject"
      else if num_underscores = 1 then .ok "session"
      else if num_underscores = 2 then .ok "scan"
      else .error (.usage (.invalidIds
        (xnat_id.filter (fun i => count_underscores i > 2))))
  | some dt =>
    if dt = "project" then
      if !xnat_id.isEmpty then .error (.usage (.idsNotAllowedForProject xnat_id))
      else .ok dt
    else
      if xnat_id.isEmpty then .error (.usage (.idsRequired dt))
      else .ok dt

/- ---------------------------------------------------------------------
   Regular-expression matching.  The source delegates to Python's `re`
   module; the patterns it passes use literal characters, '.', '*' and a
   '$' that `matching_scans` appends.  `matchhere` is an operational model
   of `re.match` for that fragment: it matches the pattern against the
   string starting at position 0 and succeeds as soon as the pattern is
   exhausted (so the end is unanchored), with '$' an end-of-string
   assertion.  `accepts` is the exact (whole-string) language of a
   '$'-free pattern, used to state what the two calling conventions mean.
   --------------------------------------------------------------------- -/

/-- Kleene-star helper: `matchstarAux ok k s` succeeds when some prefix of
    `s` consists of characters accepted by `ok` and the continuation `k`
    matches the rest. -/
def matchstarAux (ok : Char → Bool) (k : List Char → Bool) :
    List Char → Bool
  | [] => k []
  | x :: s => k (x :: s) || (ok x && matchstarAux ok k s)

/-- A single non-star pattern character against a string character:
    '.' matches anything, otherwise literal equality. -/
def charOk (c x : Char) : Bool :=
  decide (c = '.') || decide (c = x)

/-- `re.match` at position 0 for the pattern fragment used by the source:
    succeeds when the pattern matches some prefix of the string ('$'
    asserts the true end of the string, a trailing pattern character is
    starred when followed by '*'). -/
def matchhere : List Char → List Char → Bool
  | [] => fun _ => true
  | [c] => fun s =>
    if c = '$' then s.isEmpty
    else
      match s with
      | [] => false
      | x :: _ => charOk c x
  | c :: c2 :: p => fun s =>
    if c = '$' then s.isEmpty && matchhere (c2 :: p) s
    else if c2 = '*' then matchstarAux (charOk c) (matchhere p) s
    else
      match s with
      | [] => false
      | x :: s1 => charOk c x && matchhere (c2 :: p) s1

/-- Exact (whole-string) matching for a '$'-free pattern: the language the
    pattern denotes. -/
def accepts : List Char → List Char → Bool
  | [] => fun s => s.isEmpty
  | [c] => fun s =>
    match s with
    | [] => false
    | x :: s1 => charOk c x && s1.isEmpty
  | c :: c2 :: p => fun s =>
    if c2 = '*' then matchstarAux (charOk c) (accepts p) s
    else
      match s with
      | [] => false
      | x :: s1 => charOk c x && accepts (c2 :: p) s1

/-- `re.match(pat, s)` on Lean strings. -/
def re_match (pat s : String) : Bool :=
  matchhere pat.toList s.toList

/-- The pattern branch of `matching_sessions` (lines 622-625): keep the
    archive labels matched by any of the supplied patterns.  (Also the
    shape of the pattern branch of `matching_subjects`, lines 600-603.) -/
def matching_sessions_regex (all_sessions : List String)
    (session_ids : List String) : List String :=
  all_sessions.filter (fun s => session_ids.any (fun i => re_match i s))

/-- One scan of a session: id, type string and the labels of its
    resources. -/
structure Scan where
  id : String
  type : String
  resources : List String
deriving DecidableEq, Repr

/-- `matching_scans` (lines 657-660): `None` keeps every scan, otherwise a
    scan is kept when `re.match(i + '$', s.type)` succeeds for some
    supplied pattern `i`. -/
def matching_scans (scans : List Scan) (scan_types : Option (List String)) :
    List Scan :=
  scans.filter (fun s =>
    match scan_types with
    | none => true
    | some ts => ts.any (fun i => re_match (i ++ "$") s.type))

/- ---------------------------------------------------------------------
   Converter discovery, directory creation.
   --------------------------------------------------------------------- -/

/-- `os.path.join` for the simple relative components the source joins. -/
def joinPath (a b : String) : String :=
  a ++ "/" ++ b

/-- `find_executable` (lines 663-677).  `path_exists` models
    `os.path.exists`; the PATH value is split on ':' and every directory
    is examined, a later hit overwriting an earlier one. -/
def find_executable (path_exists : String → Bool) (env_path : String)
    (name : String) : Option String :=
  (env_path.splitOn ":").foldl
    (fun path dir =>
      if path_exists (joinPath dir name) then some (joinPath dir name)
      else path)
    none

/-- `errno.EEXIST`. -/
def EEXIST : Nat := 17

/-- `os.makedirs` against a filesystem modelled as the list of existing
    directories: fails with `EEXIST` when the directory already exists. -/
def os_makedirs (fs : List String) (dir : String) :
    Except Nat (List String) :=
  if dir ∈ fs then .error EEXIST else .ok (dir :: fs)

/-- The `try/except OSError` around `os.makedirs` (lines 126-130), applied
    to an arbitrary OS result: `EEXIST` is swallowed (returning the
    fallback value), every other errno re-raised. -/
def swallow_eexist {α : Type} (r : Except Nat α) (fallback : α) :
    Except Nat α :=
  match r with
  | .ok a => .ok a
  | .error e => if e = EEXIST then .ok fallback else .error e

/-- Target-directory creation as the source performs it (lines 126-130):
    `os.makedirs` with the pre-existing-directory error swallowed. -/
def makedirs_checked (fs : List String) (dir : String) :
    Except Nat (List String) :=
  swallow_eexist (os_makedirs fs dir) fs

/- ---------------------------------------------------------------------
   The per-scan retrieval pipeline of `get` (lines 97-220).
   --------------------------------------------------------------------- -/

/-- `str.upper` for the ASCII strings the source uppercases. -/
def toUpperStr (s : String) : String :=
  String.mk (s.toList.map Char.toUpper)

/-- `str.lower`. -/
def toLowerStr (s : String) : String :=
  String.mk (s.toList.map Char.toLower)

/-- `sanitize_re.sub('_', s)` (line 100 with line 31): every character
    outside `[a-zA-Z_0-9]` becomes '_'. -/
def sanitize (s : String) : String :=
  String.mk (s.toList.map (fun c => if isWordChar c then c else '_'))

/-- `str(n).zfill(4)`. -/
def zfill4 (n : Nat) : String :=
  let s := toString n
  String.mk (List.replicate (4 - s.length) '0') ++ s

/-- Filesystem and subprocess effects of one scan's processing, recorded
    as a trace. -/
inductive Action where
  | makedirs (dir : String)
  | downloadDir (resource : String) (dir : String)
  | mkdir (dir : String)
  | move (src dst : String)
  | callDcm2niix (bin zip_opt out_dir base src : String)
  | callMrconvert (bin src dst : String)
  | rmtree (dir : String)
deriving DecidableEq, Repr

def Action.isMrconvertCall : Action → Bool
  | .callMrconvert _ _ _ => true
  | _ => false

def Action.isDcm2niixCall : Action → Bool
  | .callDcm2niix _ _ _ _ _ => true
  | _ => false

/-- The data of one recovery warning printed on a failed conversion
    (lines 213-216): experiment label, scan type, requested format. -/
structure Warning where
  session : String
  scanType : String
  convertTo : Option String
deriving DecidableEq, Repr

/-- The caller-supplied arguments of `get` that the per-scan loop reads. -/
structure Args where
  session_ids : List String
  download_dir : String
  convert_to : Option String
  converter : Option String
  subject_dirs : Bool
  strip_name : Bool
deriving Repr

/-- The environment a scan's processing runs in: the results of the two
    `find_executable` calls, whether an invoked converter subprocess exits
    non-zero, and the directory listing seen by the strip-name branch. -/
structure ScanEnv where
  dcm2niix : Option String
  mrconvert : Option String
  convFails : Bool
  dcmfiles : List String
deriving Repr

/-- Format selection (lines 102-118).  With an explicitly requested
    format (a non-`None` `data_format`), uppercase it; otherwise enumerate
    the scan's resource labels that appear in the format table: zero is a
    usage error, more than one is a usage error naming them all, exactly
    one is selected. -/
def selectFormat (session_ids : List String) (data_format : Option String)
    (scan : Scan) : Except PyError String :=
  match data_format with
  | some df => .ok (toUpperStr df)
  | none =>
    let data_formats := scan.resources.filter isKnownFormat
    if data_formats.isEmpty then
      .error (.usage (.noValidFormats scan.id scan.type session_ids))
    else if 1 < data_formats.length then
      .error (.usage (.multipleFormats (sanitize scan.type) session_ids
        data_formats))
    else .ok (data_formats.headD "")

/-- The target directory (lines 119-125): `{root}/{session}` by default,
    `{root}/{project}_{subject}/{suffix}` with `subject_dirs`. -/
def targetDirOf (subject_dirs : Bool) (download_dir session_label : String) :
    String :=
  if subject_dirs then
    let parts := session_label.splitOn "_"
    joinPath (joinPath download_dir (String.intercalate "_" (parts.take 2)))
      (parts.getLastD "")
  else joinPath download_dir session_label

/-- The target extension (lines 131-134): the requested conversion's
    extension when conversion is requested, else the source format's. -/
def computeTargetExt (convert_to : Option String) (data_format : String) :
    Except PyError String :=
  match convert_to with
  | some ct =>
    match lookupExt (toUpperStr ct) with
    | some e => .ok e
    | none => .error (.keyError (toUpperStr ct))
  | none =>
    match lookupExt data_format with
    | some e => .ok e
    | none => .error (.keyError data_format)

/-- `scan.resources[data_format].download_dir(tmp_dir)` (line 140):
    `KeyError` when the scan has no resource of the chosen format. -/
def downloadResource (scan : Scan) (data_format tmp_dir : String) :
    Except PyError Action :=
  if data_format ∈ scan.resources then .ok (.downloadDir data_format tmp_dir)
  else .error (.keyError data_format)

/-- The source path inside the staging directory (lines 144-149): the
    archive-mirroring nested path, with the sanitized-type + extension
    file appended for non-generic formats. -/
def computeSrcPath (tmp_dir session_label scan_label scan_name
    data_format : String) : Except PyError String :=
  let base := joinPath (joinPath (joinPath (joinPath (joinPath
    (joinPath tmp_dir session_label) "scans") scan_label) "resources")
    data_format) "files"
  if data_format = "DICOM" ∨ data_format = "secondary" then .ok base
  else
    match lookupExt data_format with
    | some e => .ok (joinPath base scan_name ++ e)
    | none => .error (.keyError data_format)

/-- Converter selection (lines 151-168): an explicitly selected converter
    that is not discoverable is a usage error; selecting one sets the
    other to `None`; anything other than `None`/'dcm2niix'/'mrconvert'
    trips the `assert`. -/
def selectConverter (converter : Option String)
    (dcm2niix mrconvert : Option String) :
    Except PyError (Option String × Option String) :=
  match converter with
  | none => .ok (dcm2niix, mrconvert)
  | some c =>
    if c = "dcm2niix" then
      match dcm2niix with
      | none => .error (.usage (.converterNotAvailable "dcm2niix"))
      | some p => .ok (some p, none)
    else if c = "mrconvert" then
      match mrconvert with
      | none => .error (.usage (.converterNotAvailable "mrconvert"))
      | some p => .ok (none, some p)
    else .error .assertionError

/-- The strip-name branch (lines 175-184): a fresh target-named directory
    and the sorted DICOM files renumbered `0001.dcm`, `0002.dcm`, ... -/
def stripNameActions (files : List String) (src_path tmp_path : String) :
    List Action :=
  .mkdir tmp_path ::
    files.enum.map (fun p =>
      .move (joinPath src_path p.2)
        (joinPath tmp_path (zfill4 (p.1 + 1) ++ ".dcm")))

/-- The recovery of the `except sp.CalledProcessError` handler (lines
    209-216): the raw source artifact is moved under the source format's
    own extension and one warning is recorded; the `data_format_exts`
    access inside the handler can itself raise `KeyError`. -/
def convRecovery (call : Action) (src_path target_dir scan_label
    exp_label scan_type : String) (convert_to : Option String)
    (data_format : String) : Except PyError (List Action × List Warning) :=
  match lookupExt data_format with
  | some e =>
    .ok ([call, .move src_path (joinPath target_dir (scan_label ++ e))],
      [⟨exp_label, scan_type, convert_to⟩])
  | none => .error (.keyError data_format)

/-- The convert-or-move block (lines 169-216), `try/except` included.
    Branches in source order: no conversion needed (with the strip-name
    sub-branch), DICOM-to-NIfTI via dcm2niix, anything else via mrconvert,
    otherwise the error raise whose `msg` local is only bound in the
    DICOM-to-NIfTI case (an unbound `msg` is a `NameError`). -/
def convertStep (convert_to : Option String) (strip_name : Bool)
    (data_format : String) (dcm2niix mrconvert : Option String)
    (src_path target_path target_dir scan_label exp_label
    scan_type : String) (env : ScanEnv) :
    Except PyError (List Action × List Warning) :=
  if convert_to = none ∨ convert_to.map toUpperStr = some data_format then
    if strip_name ∧ (data_format = "DICOM" ∨ data_format = "secondary") then
      .ok (stripNameActions (env.dcmfiles.mergeSort (fun a b => a ≤ b))
        src_path target_path, [])
    else .ok ([.move src_path target_path], [])
  else if (convert_to = some "nifti" ∨ convert_to = some "nifti_gz") ∧
      data_format = "DICOM" ∧ dcm2niix.isSome then
    let bin := dcm2niix.getD ""
    let zip_opt := if convert_to = some "nifti_gz" then "y" else "n"
    let call := Action.callDcm2niix bin zip_opt target_dir scan_label src_path
    if env.convFails then
      convRecovery call src_path target_dir scan_label exp_label scan_type
        convert_to data_format
    else .ok ([call], [])
  else
    match mrconvert with
    | some bin =>
      let call := Action.callMrconvert bin src_path target_path
      if env.convFails then
        convRecovery call src_path target_dir scan_label exp_label scan_type
          convert_to data_format
      else .ok ([call], [])
    | none =>
      if data_format = "DICOM" ∧
          (convert_to = some "nifti" ∨ convert_to = some "nifti_gz") then
        .error (.usage (.installConverter "either dcm2niix or "
          (toLowerStr data_format) convert_to))
      else .error (.nameError "msg")

/-- One iteration of the scan loop of `get` (lines 99-219) for a session
    with label `session_label` (also the experiment's label).  Returns the
    value of the `data_format` variable after the iteration, the recorded
    effect trace and the recorded warnings. -/
def processScan (args : Args) (session_label : String) (env : ScanEnv)
    (data_format0 : Option String) (scan : Scan) :
    Except PyError (String × List Action × List Warning) :=
  let scan_name := sanitize scan.type
  let scan_label := scan.id ++ "-" ++ scan_name
  match selectFormat args.session_ids data_format0 scan with
  | .error e => .error e
  | .ok data_format =>
    let target_dir := targetDirOf args.subject_dirs args.download_dir
      session_label
    match computeTargetExt args.convert_to data_format with
    | .error e => .error e
    | .ok target_ext =>
      let target_path := joinPath target_dir (scan_label ++ target_ext)
      let tmp_dir := target_path ++ ".download"
      match downloadResource scan data_format tmp_dir with
      | .error e => .error e
      | .ok download =>
        match computeSrcPath tmp_dir session_label scan_label scan_name
            data_format with
        | .error e => .error e
        | .ok src_path =>
          match selectConverter args.converter env.dcm2niix env.mrconvert with
          | .error e => .error e
          | .ok dm =>
            match convertStep args.convert_to args.strip_name data_format
                dm.1 dm.2 src_path target_path target_dir scan_label
                session_label scan.type env with
            | .error e => .error e
            | .ok conv =>
              .ok (data_format,
                .makedirs target_dir :: download :: conv.1 ++
                  [.rmtree tmp_dir],
                conv.2)

/-- The scan loop of `get` over the matched scans of one session, with
    the `data_format` variable threaded from one iteration to the next
    exactly as the source's reassignment does. -/
def processScans (args : Args) (session_label : String) (env : ScanEnv) :
    Option String → List Scan →
    Except PyError (Option String × List Action × List Warning)
  | df, [] => .ok (df, [], [])
  | df, scan :: rest =>
    match processScan args session_label env df scan with
    | .error e => .error e
    | .ok (fmt, acts, ws) =>
      match processScans args session_label env (some fmt) rest with
      | .error e => .error e
      | .ok (df1, acts1, ws1) => .ok (df1, acts ++ acts1, ws ++ ws1)

/- ---------------------------------------------------------------------
   Concrete fixtures used by the counterexamples and witnesses.
   --------------------------------------------------------------------- -/

/-- A scan exposing exactly one recognised resource format. -/
def scanOneFmt : Scan := ⟨"1", "t1", ["NIFTI_GZ"]⟩

/-- A scan exposing two recognised resource formats. -/
def scanTwoFmts : Scan := ⟨"2", "t2", ["NIFTI_GZ", "MRTRIX"]⟩

/-- A scan whose only recognised resource format is `secondary`. -/
def scanSecondary : Scan := ⟨"1", "t1", ["secondary"]⟩

/-- A second `secondary`-only scan. -/
def scanSecondary2 : Scan := ⟨"2", "t2", ["secondary"]⟩

/-- A plain `get` call: one session pattern, no requested format, no
    conversion, no explicit converter, flat layout, no name stripping. -/
def argsPlain : Args := ⟨["MRH060_001_MR01"], "/tmp", none, none, false, false⟩

/-- Neither converter on the path, subprocesses succeed. -/
def envPlain : ScanEnv := ⟨none, none, false, []⟩

/-- A `get` call requesting conversion to `nifti_gz`. -/
def argsConv : Args := ⟨["SESS1"], "/tmp", some "nifti_gz", none, false, false⟩

/-- dcm2niix discoverable, mrconvert not, converter subprocess fails. -/
def envFail : ScanEnv := ⟨some "/usr/bin/dcm2niix", none, true, []⟩

/-- A scan with a single DICOM resource. -/
def scanDicom : Scan := ⟨"3", "t3", ["DICOM"]⟩

/- =====================================================================
   Theorems.
   ===================================================================== -/

/-- A fold that overwrites its accumulator on every hit returns the last
    hit, or the initial accumulator when there is none. -/
theorem foldl_last_match {α β : Type} (m : α → Bool) (g : α → β) :
    ∀ (l : List α) (acc : Option β),
      l.foldl (fun path d => if m d then some (g d) else path) acc =
        (l.filter m).getLast?.elim acc (fun d => some (g d)) := by
  intro l
  induction l using List.reverseRecOn with
  | nil => intro acc; rfl
  | append_singleton l d ih =>
    intro acc
    rw [List.foldl_append, List.foldl_cons, List.foldl_nil, ih]
    by_cases hm : m d
    · simp [List.filter_append, hm, List.getLast?_concat]
    · simp [List.filter_append, hm]

/-- C2 (counterexample): ids with mixed underscore counts 0 and 1 do not
    fail; the call infers `session` from the maximum count. -/
theorem C2_counterexample :
    inferDatatype none ["a", "a_b"] = .ok "session" ∧
    count_underscores "a" ≠ count_underscores "a_b" :=
  ⟨rfl, by decide⟩

/-- C2 (amended): with no explicit datatype and a non-empty literal id
    set, `ls` infers the level from the maximum underscore count over the
    set: 0 gives subject, 1 session, 2 scan, and a maximum above 2 fails
    with a `UsageError` naming the ids whose count exceeds 2; mixed
    counts at most 2 do not fail. -/
theorem C2_max_underscore_inference (ids : List String)
    (h1 : ids ≠ []) (h2 : is_regex ids = false) :
    ((ids.map count_underscores).foldl max 0 = 0 →
      inferDatatype none ids = .ok "subject") ∧
    ((ids.map count_underscores).foldl max 0 = 1 →
      inferDatatype none ids = .ok "session") ∧
    ((ids.map count_underscores).foldl max 0 = 2 →
      inferDatatype none ids = .ok "scan") ∧
    (2 < (ids.map count_underscores).foldl max 0 →
      inferDatatype none ids = .error (.usage (.invalidIds
        (ids.filter (fun i => count_underscores i > 2))))) := by
  have hne : ids.isEmpty = false := by
    cases ids with
    | nil => exact absurd rfl h1
    | cons a l => rfl
  refine ⟨fun h => ?_, fun h => ?_, fun h => ?_, fun h => ?_⟩
  · simp [inferDatatype, hne, h2, h]
  · simp [inferDatatype, hne, h2, h]
  · simp [inferDatatype, hne, h2, h]
  · have h0 : (ids.map count_underscores).foldl max 0 ≠ 0 := by omega
    have h1a : (ids.map count_underscores).foldl max 0 ≠ 1 := by omega
    have h2a : (ids.map count_underscores).foldl max 0 ≠ 2 := by omega
    simp [inferDatatype, hne, h2, h0, h1a, h2a]

/-- C2 witness: a one-underscore literal id infers `session`. -/
theorem C2_max_underscore_inference_witness :
    inferDatatype none ["ab_c"] = .ok "session" :=
  (C2_max_underscore_inference ["ab_c"] (by decide) (by decide)).2.1 (by decide)

/-- C4 (code evaluated at the failing input): with neither converter
    discoverable, a non-DICOM-to-NIfTI conversion request dies with a
    `NameError` on the unbound local `msg` instead of the `UsageError`
    the claim describes; the DICOM-to-NIfTI case does raise the
    `UsageError` naming both tools. -/
theorem C4_missing_converter_eval :
    convertStep (some "mrtrix") false "NIFTI" none none "src" "tgt" "tdir"
      "lbl" "SESS" "scant" ⟨none, none, false, []⟩ =
      .error (.nameError "msg") ∧
    convertStep (some "nifti_gz") false "DICOM" none none "src" "tgt" "tdir"
      "lbl" "SESS" "scant" ⟨none, none, false, []⟩ =
      .error (.usage (.installConverter "either dcm2niix or " "dicom"
        (some "nifti_gz"))) :=
  ⟨rfl, rfl⟩

/-- C5: for every filename whose extracted extension is one of the
    registered canonical extensions, format lookup from the filename
    followed by extension lookup from the format returns the filename's
    own extracted extension. -/
theorem C5_extension_roundtrip (f : String)
    (h : extract_extension f ∈ data_format_exts.map Prod.snd) :
    ∃ df, get_data_format f = .ok df ∧
      get_extension df = some (extract_extension f) := by
  unfold get_data_format get_extension
  revert h
  generalize extract_extension f = e
  intro h
  simp only [data_format_exts, List.map_cons, List.map_nil, List.mem_cons,
    List.not_mem_nil, or_false] at h
  rcases h with h|h|h|h|h|h|h|h|h|h|h|h|h|h <;> subst h <;>
    exact ⟨_, rfl, rfl⟩

/-- C5 witness: the round trip at `scan.nii.gz`. -/
theorem C5_extension_roundtrip_witness :
    extract_extension "scan.nii.gz" ∈ data_format_exts.map Prod.snd ∧
    ∃ df, get_data_format "scan.nii.gz" = .ok df ∧
      get_extension df = some (extract_extension "scan.nii.gz") :=
  ⟨by decide, C5_extension_roundtrip "scan.nii.gz" (by decide)⟩

/-- C8: converter discovery scans every PATH directory and returns the
    join of the last directory containing the file, or nothing when no
    directory does. -/
theorem C8_find_executable_last_match (path_exists : String → Bool)
    (env_path name : String) :
    find_executable path_exists env_path name =
      ((env_path.splitOn ":").filter
        (fun d => path_exists (joinPath d name))).getLast?.map
        (fun d => joinPath d name) := by
  unfold find_executable
  rw [foldl_last_match (fun d => path_exists (joinPath d name))
    (fun d => joinPath d name) (env_path.splitOn ":") none]
  cases ((env_path.splitOn ":").filter
      (fun d => path_exists (joinPath d name))).getLast? with
  | none => rfl
  | some d => rfl

/-- C9: target-directory creation swallows the pre-existing-directory
    error (so a second creation attempt for the same directory, and any
    attempt on an already existing directory, succeeds), while every
    other errno is re-raised. -/
theorem C9_makedirs_idempotent (fs : List String) (dir : String) (e : Nat)
    (he : e ≠ EEXIST) :
    (dir ∈ fs → makedirs_checked fs dir = .ok fs) ∧
    (∀ fs1, makedirs_checked fs dir = .ok fs1 →
      makedirs_checked fs1 dir = .ok fs1) ∧
    (∀ fallback : List String,
      swallow_eexist (.error e) fallback = .error e) ∧
    (∀ fallback : List String,
      swallow_eexist (.error EEXIST) fallback = .ok fallback) := by
  refine ⟨fun h => ?_, fun fs1 h => ?_, fun fb => ?_, fun fb => ?_⟩
  · simp [makedirs_checked, os_makedirs, swallow_eexist, h]
  · by_cases hd : dir ∈ fs
    · simp [makedirs_checked, os_makedirs, swallow_eexist, hd] at h
      subst h
      simp [makedirs_checked, os_makedirs, swallow_eexist, hd]
    · simp [makedirs_checked, os_makedirs, swallow_eexist, hd] at h
      subst h
      simp [makedirs_checked, os_makedirs, swallow_eexist]
  · simp [swallow_eexist, he]
  · simp [swallow_eexist]

/-- C1 (counterexample): in a run started with no explicit format, a
    second scan exposing two recognised formats raises no error at all —
    the run succeeds with the first scan's format reused — although the
    claim requires a fatal `UsageError` naming both candidates. -/
theorem C1_counterexample :
    1 < (scanTwoFmts.resources.filter isKnownFormat).length ∧
    (processScans argsPlain "MRH060_001_MR01" envPlain none
      [scanOneFmt, scanTwoFmts]).isOk = true :=
  ⟨(by decide), rfl⟩

/-- C1 (amended): for the scan processed while no format has been
    selected yet (in particular the first scan of a run with no explicit
    format), selection enumerates the scan's resource labels intersected
    with the format table: zero candidates is a fatal `UsageError`
    ("no valid scan formats"), more than one a fatal `UsageError` naming
    all candidates, and exactly one candidate is selected.  Subsequent
    scans reuse the stored format (claim C10). -/
theorem C1_first_scan_selection (session_ids : List String) (scan : Scan) :
    (scan.resources.filter isKnownFormat = [] →
      selectFormat session_ids none scan =
        .error (.usage (.noValidFormats scan.id scan.type session_ids))) ∧
    (1 < (scan.resources.filter isKnownFormat).length →
      selectFormat session_ids none scan =
        .error (.usage (.multipleFormats (sanitize scan.type) session_ids
          (scan.resources.filter isKnownFormat)))) ∧
    (∀ df, scan.resources.filter isKnownFormat = [df] →
      selectFormat session_ids none scan = .ok df) := by
  refine ⟨fun h => ?_, fun h => ?_, fun df h => ?_⟩
  · simp [selectFormat, h]
  · have hne : (scan.resources.filter isKnownFormat).isEmpty = false := by
      cases hf : scan.resources.filter isKnownFormat with
      | nil => rw [hf] at h; simp at h
      | cons a t => rfl
    simp [selectFormat, hne, h]
  · simp [selectFormat, h]

/-- C1 witness: a single `NIFTI_GZ` resource is selected. -/
theorem C1_first_scan_selection_witness :
    selectFormat ["MRH060_001_MR01"] none scanOneFmt = .ok "NIFTI_GZ" :=
  (C1_first_scan_selection ["MRH060_001_MR01"] scanOneFmt).2.2 "NIFTI_GZ"
    (by decide)

/-- C10 (counterexample): the reused format is the uppercased stored
    value, which differs from the first scan's selected format for
    `secondary` — and the run then aborts with a `KeyError` on
    `SECONDARY` instead of processing the later scan with the reused
    format. -/
theorem C10_counterexample :
    selectFormat argsPlain.session_ids none scanSecondary = .ok "secondary" ∧
    selectFormat argsPlain.session_ids (some "secondary") scanSecondary2 =
      .ok "SECONDARY" ∧
    "SECONDARY" ≠ "secondary" ∧
    processScans argsPlain "MRH060_001_MR01" envPlain none
      [scanSecondary, scanSecondary2] = .error (.keyError "SECONDARY") :=
  ⟨rfl, rfl, (by decide), rfl⟩

/-- C10 (amended): once a format is stored, selection for every later
    scan returns the stored value uppercased without consulting the
    scan's resources (so the zero- and multiple-candidate checks never
    execute); the value a scan stores is exactly the format it selected;
    and a run's first succeeding scan makes the remaining scans run from
    that stored format. -/
theorem C10_format_reuse (args : Args) (sess : String) (env : ScanEnv)
    (f : String) :
    (∀ scan, selectFormat args.session_ids (some f) scan =
      .ok (toUpperStr f)) ∧
    (∀ df0 scan fmt acts ws,
      processScan args sess env df0 scan = .ok (fmt, acts, ws) →
      selectFormat args.session_ids df0 scan = .ok fmt) ∧
    (∀ scan out rest, processScan args sess env none scan = .ok out →
      processScans args sess env none (scan :: rest) =
        Except.map (fun r => (r.1, out.2.1 ++ r.2.1, out.2.2 ++ r.2.2))
          (processScans args sess env (some out.1) rest)) := by
  refine ⟨fun scan => rfl, ?_, ?_⟩
  · intro df0 scan fmt acts ws h
    unfold processScan at h
    dsimp only [] at h
    split at h
    · simp at h
    · rename_i df1 hsel
      rw [hsel]
      repeat' split at h
      all_goals
        first
        | (simp at h; done)
        | (simp only [Except.ok.injEq, Prod.mk.injEq] at h
           rw [h.1])
  · intro scan out rest h
    obtain ⟨fmt, acts, ws⟩ := out
    simp only [processScans, h]
    cases hr : processScans args sess env (some fmt) rest with
    | error e => simp [Except.map]
    | ok r => simp [Except.map]

/-- C10 witness: the second and third parts applied to the concrete
    one-format scan. -/
theorem C10_format_reuse_witness :
    selectFormat argsPlain.session_ids none scanOneFmt = .ok "NIFTI_GZ" ∧
    processScans argsPlain "MRH060_001_MR01" envPlain none [scanOneFmt] =
      Except.map (fun r => (r.1,
          [Action.makedirs "/tmp/MRH060_001_MR01",
           Action.downloadDir "NIFTI_GZ"
             "/tmp/MRH060_001_MR01/1-t1.nii.gz.download",
           Action.move
             "/tmp/MRH060_001_MR01/1-t1.nii.gz.download/MRH060_001_MR01/scans/1-t1/resources/NIFTI_GZ/files/t1.nii.gz"
             "/tmp/MRH060_001_MR01/1-t1.nii.gz",
           Action.rmtree "/tmp/MRH060_001_MR01/1-t1.nii.gz.download"]
          ++ r.2.1, ([] : List Warning) ++ r.2.2))
        (processScans argsPlain "MRH060_001_MR01" envPlain
          (some "NIFTI_GZ") []) :=
  ⟨(C10_format_reuse argsPlain "MRH060_001_MR01" envPlain "x").2.1 none
      scanOneFmt "NIFTI_GZ" _ _ rfl,
    (C10_format_reuse argsPlain "MRH060_001_MR01" envPlain "x").2.2
      scanOneFmt _ [] rfl⟩

/-- C7: an explicitly selected converter that is not discoverable is an
    immediate `UsageError` (no fallback); a discoverable selected
    converter disables the other converter, and the convert block never
    invokes a converter whose slot is disabled. -/
theorem C7_explicit_converter (d m : Option String) :
    (selectConverter (some "dcm2niix") none m =
      .error (.usage (.converterNotAvailable "dcm2niix"))) ∧
    (selectConverter (some "mrconvert") d none =
      .error (.usage (.converterNotAvailable "mrconvert"))) ∧
    (∀ p, selectConverter (some "dcm2niix") (some p) m = .ok (some p, none)) ∧
    (∀ p, selectConverter (some "mrconvert") d (some p) = .ok (none, some p)) ∧
    (∀ ct sn df src tp td sl el st env acts ws,
      convertStep ct sn df d none src tp td sl el st env = .ok (acts, ws) →
      ∀ a ∈ acts, a.isMrconvertCall = false) ∧
    (∀ ct sn df src tp td sl el st env acts ws,
      convertStep ct sn df none m src tp td sl el st env = .ok (acts, ws) →
      ∀ a ∈ acts, a.isDcm2niixCall = false) := by
  refine ⟨rfl, rfl, fun p => rfl, fun p => rfl, ?_, ?_⟩
  · intro ct sn df src tp td sl el st env acts ws h a ha
    unfold convertStep convRecovery at h
    dsimp only [] at h
    repeat' split at h
    all_goals
      first
      | (simp at h; done)
      | (simp only [Except.ok.injEq, Prod.mk.injEq] at h
         rw [← h.1] at ha
         simp only [stripNameActions, List.mem_cons, List.mem_map,
           List.not_mem_nil, or_false] at ha
         first
         | (rcases ha with rfl | ⟨x, hx, rfl⟩ <;> rfl)
         | (rcases ha with rfl | rfl <;> rfl)
         | (rcases ha with rfl; rfl)
         | (rw [ha]; rfl))
      | simp_all
  · intro ct sn df src tp td sl el st env acts ws h a ha
    unfold convertStep convRecovery at h
    dsimp only [] at h
    repeat' split at h
    all_goals
      first
      | (simp at h; done)
      | (simp only [Except.ok.injEq, Prod.mk.injEq] at h
         rw [← h.1] at ha
         simp only [stripNameActions, List.mem_cons, List.mem_map,
           List.not_mem_nil, or_false] at ha
         first
         | (rcases ha with rfl | ⟨x, hx, rfl⟩ <;> rfl)
         | (rcases ha with rfl | rfl <;> rfl)
         | (rcases ha with rfl; rfl)
         | (rw [ha]; rfl))
      | simp_all

/-- C7 witness: explicit `dcm2niix` with no binary fails; a successful
    convert block with the mrconvert slot disabled contains no mrconvert
    invocation. -/
theorem C7_explicit_converter_witness :
    selectConverter (some "dcm2niix") none none =
      .error (.usage (.converterNotAvailable "dcm2niix")) ∧
    (∀ a ∈ [Action.move "s" "t"], a.isMrconvertCall = false) :=
  ⟨(C7_explicit_converter none none).1,
    (C7_explicit_converter none none).2.2.2.2.1 none false "NIFTI" "s" "t"
      "td" "sl" "el" "st" ⟨none, none, false, []⟩ [Action.move "s" "t"] []
      rfl⟩

/-- C9 witness: creating `/tmp/x` when it exists succeeds; errno 13 is
    re-raised. -/
theorem C9_makedirs_idempotent_witness :
    (13 : Nat) ≠ EEXIST ∧
    makedirs_checked ["/tmp/x"] "/tmp/x" = .ok ["/tmp/x"] ∧
    swallow_eexist (.error 13) ([] : List String) = .error 13 :=
  ⟨by decide,
    (C9_makedirs_idempotent ["/tmp/x"] "/tmp/x" 13 (by decide)).1
      (by simp),
    (C9_makedirs_idempotent ["/tmp/x"] "/tmp/x" 13 (by decide)).2.2.1 []⟩

/-- Helper for C3: with a conversion actually requested (requested format
    differs from the source format), a converter branch taken, and a
    failing subprocess, the convert block recovers: the invoked call is
    followed by the raw-source move under the source format's own
    extension and exactly one warning is recorded. -/
theorem convertStep_recovery (ct : String) (sn : Bool) (f e : String)
    (d m : Option String) (src tp td sl el st : String) (env : ScanEnv)
    (hne : toUpperStr ct ≠ f) (hfe : lookupExt f = some e)
    (hfail : env.convFails = true)
    (hbranch : ((ct = "nifti" ∨ ct = "nifti_gz") ∧ f = "DICOM" ∧
        d.isSome = true) ∨
      (¬((ct = "nifti" ∨ ct = "nifti_gz") ∧ f = "DICOM" ∧
        d.isSome = true) ∧ m.isSome = true)) :
    ∃ call, convertStep (some ct) sn f d m src tp td sl el st env =
      .ok ([call, .move src (joinPath td (sl ++ e))],
        [⟨el, st, some ct⟩]) := by
  have hb1 : ¬(some ct = (none : Option String) ∨
      Option.map toUpperStr (some ct) = some f) := by
    rintro (h | h)
    · exact Option.noConfusion h
    · rw [Option.map_some'] at h
      exact hne (Option.some.inj h)
  unfold convertStep
  rw [if_neg hb1]
  rcases hbranch with hcond | ⟨hncond, hm⟩
  · have hcond1 : (some ct = some "nifti" ∨ some ct = some "nifti_gz") ∧
        f = "DICOM" ∧ d.isSome = true := by
      simpa using hcond
    rw [if_pos hcond1]
    dsimp only []
    rw [if_pos hfail]
    unfold convRecovery
    rw [hfe]
    exact ⟨_, rfl⟩
  · have hncond1 : ¬((some ct = some "nifti" ∨ some ct = some "nifti_gz") ∧
        f = "DICOM" ∧ d.isSome = true) := by
      simpa using hncond
    rw [if_neg hncond1]
    obtain ⟨bin, hbin⟩ := Option.isSome_iff_exists.mp hm
    rw [hbin]
    dsimp only []
    rw [if_pos hfail]
    unfold convRecovery
    rw [hfe]
    exact ⟨_, rfl⟩

/-- C3: for every scan whose conversion subprocess exits with a non-zero
    status, the run is not aborted: the raw source artifact is moved into
    the target directory under the source format's own extension, exactly
    one warning naming the session, scan type and requested format is
    recorded, and processing continues with the remaining scans. -/
theorem C3_conversion_failure_recovery (args : Args) (sess : String)
    (env : ScanEnv) (df0 : Option String) (scan : Scan)
    (f te e ct : String) (d m : Option String)
    (hsel : selectFormat args.session_ids df0 scan = .ok f)
    (hct : args.convert_to = some ct)
    (hne : toUpperStr ct ≠ f)
    (hte : lookupExt (toUpperStr ct) = some te)
    (hres : f ∈ scan.resources)
    (hfe : lookupExt f = some e)
    (hcv : selectConverter args.converter env.dcm2niix env.mrconvert =
      .ok (d, m))
    (hfail : env.convFails = true)
    (hbranch : ((ct = "nifti" ∨ ct = "nifti_gz") ∧ f = "DICOM" ∧
        d.isSome = true) ∨
      (¬((ct = "nifti" ∨ ct = "nifti_gz") ∧ f = "DICOM" ∧
        d.isSome = true) ∧ m.isSome = true)) :
    ∃ call src_path tmp_dir,
      processScan args sess env df0 scan =
        .ok (f,
          [.makedirs (targetDirOf args.subject_dirs args.download_dir sess),
           .downloadDir f tmp_dir, call,
           .move src_path (joinPath
             (targetDirOf args.subject_dirs args.download_dir sess)
             ((scan.id ++ "-" ++ sanitize scan.type) ++ e)),
           .rmtree tmp_dir],
          [⟨sess, scan.type, some ct⟩]) ∧
      ∀ rest, processScans args sess env df0 (scan :: rest) =
        Except.map (fun r => (r.1,
          [.makedirs (targetDirOf args.subject_dirs args.download_dir sess),
           .downloadDir f tmp_dir, call,
           .move src_path (joinPath
             (targetDirOf args.subject_dirs args.download_dir sess)
             ((scan.id ++ "-" ++ sanitize scan.type) ++ e)),
           .rmtree tmp_dir] ++ r.2.1,
          Warning.mk sess scan.type (some ct) :: r.2.2))
          (processScans args sess env (some f) rest) := by
  have h2 : computeTargetExt args.convert_to f = .ok te := by
    rw [hct]
    unfold computeTargetExt
    dsimp only []
    rw [hte]
  have hsp : ∃ sp, computeSrcPath
      (joinPath (targetDirOf args.subject_dirs args.download_dir sess)
        ((scan.id ++ "-" ++ sanitize scan.type) ++ te) ++ ".download")
      sess (scan.id ++ "-" ++ sanitize scan.type) (sanitize scan.type) f =
      .ok sp := by
    unfold computeSrcPath
    by_cases hdf : f = "DICOM" ∨ f = "secondary"
    · rw [if_pos hdf]
      exact ⟨_, rfl⟩
    · rw [if_neg hdf, hfe]
      exact ⟨_, rfl⟩
  obtain ⟨sp, hsp⟩ := hsp
  have h3 : downloadResource scan f
      (joinPath (targetDirOf args.subject_dirs args.download_dir sess)
        ((scan.id ++ "-" ++ sanitize scan.type) ++ te) ++ ".download") =
      .ok (.downloadDir f
        (joinPath (targetDirOf args.subject_dirs args.download_dir sess)
          ((scan.id ++ "-" ++ sanitize scan.type) ++ te) ++ ".download")) := by
    unfold downloadResource
    rw [if_pos hres]
  obtain ⟨call, hconv⟩ := convertStep_recovery ct args.strip_name f e d m sp
    (joinPath (targetDirOf args.subject_dirs args.download_dir sess)
      ((scan.id ++ "-" ++ sanitize scan.type) ++ te))
    (targetDirOf args.subject_dirs args.download_dir sess)
    (scan.id ++ "-" ++ sanitize scan.type) sess scan.type env
    hne hfe hfail hbranch
  have hps : processScan args sess env df0 scan =
      .ok (f,
        [.makedirs (targetDirOf args.subject_dirs args.download_dir sess),
         .downloadDir f
           (joinPath (targetDirOf args.subject_dirs args.download_dir sess)
             ((scan.id ++ "-" ++ sanitize scan.type) ++ te) ++ ".download"),
         call,
         .move sp (joinPath
           (targetDirOf args.subject_dirs args.download_dir sess)
           ((scan.id ++ "-" ++ sanitize scan.type) ++ e)),
         .rmtree (joinPath
           (targetDirOf args.subject_dirs args.download_dir sess)
           ((scan.id ++ "-" ++ sanitize scan.type) ++ te) ++ ".download")],
        [⟨sess, scan.type, some ct⟩]) := by
    unfold processScan
    rw [hsel]
    dsimp only []
    rw [h2]
    dsimp only []
    rw [h3]
    dsimp only []
    rw [hsp]
    dsimp only []
    rw [hcv]
    dsimp only []
    rw [← hct] at hconv
    rw [hconv]
    dsimp only []
    rw [hct]
    rfl
  refine ⟨call, sp,
    joinPath (targetDirOf args.subject_dirs args.download_dir sess)
      ((scan.id ++ "-" ++ sanitize scan.type) ++ te) ++ ".download",
    hps, fun rest => ?_⟩
  simp only [processScans, hps]
  cases hr : processScans args sess env (some f) rest with
  | error e2 => rfl
  | ok r => rfl

/-- `matchstarAux` only depends on its continuation extensionally. -/
theorem matchstarAux_congr (ok : Char → Bool) (k1 k2 : List Char → Bool)
    (hk : ∀ t, k1 t = k2 t) :
    ∀ s, matchstarAux ok k1 s = matchstarAux ok k2 s
  | [] => by simp [matchstarAux, hk]
  | x :: s => by
    simp [matchstarAux, hk, matchstarAux_congr ok k1 k2 hk s]

/-- Appending '$' to a '$'-free pattern turns prefix matching into exact
    whole-string matching: this is why `matching_scans` anchors both
    ends. -/
theorem matchhere_append_dollar :
    ∀ (p : List Char), '$' ∉ p → ∀ s : List Char,
      matchhere (p ++ ['$']) s = accepts p s
  | [], _, s => by simp [matchhere, accepts]
  | [c], hd, s => by
    have hc : c ≠ '$' := fun h => hd (by simp [h])
    cases s with
    | nil => simp [matchhere, accepts, hc]
    | cons x s1 => simp [matchhere, accepts, hc]
  | c :: c2 :: q, hd, s => by
    have hc : c ≠ '$' := fun h => hd (by simp [h])
    have hd2 : '$' ∉ c2 :: q := fun h => hd (List.mem_cons_of_mem c h)
    by_cases hc2 : c2 = '*'
    · subst hc2
      have hdq : '$' ∉ q := fun h => hd2 (List.mem_cons_of_mem _ h)
      have hl : matchhere ((c :: '*' :: q) ++ ['$']) s =
          matchstarAux (charOk c) (matchhere (q ++ ['$'])) s := by
        simp [matchhere, hc]
      have hr : accepts (c :: '*' :: q) s =
          matchstarAux (charOk c) (accepts q) s := by
        simp [accepts]
      rw [hl, hr]
      exact matchstarAux_congr _ _ _
        (fun t => matchhere_append_dollar q hdq t) s
    · cases s with
      | nil => simp [matchhere, accepts, hc, hc2]
      | cons x s1 =>
        have hih := matchhere_append_dollar (c2 :: q) hd2 s1
        simp only [List.cons_append] at hih ⊢
        simp [matchhere, accepts, hc, hc2, hih]

/-- Splitting an existential over the prefixes of `x :: s` into the empty
    prefix and the prefixes through `x`. -/
theorem exists_take_cons (P : List Char → Bool) (x : Char) (s : List Char) :
    (∃ k ≤ (x :: s).length, P ((x :: s).take k) = true) ↔
      (P [] = true ∨ ∃ j ≤ s.length, P (x :: s.take j) = true) := by
  constructor
  · rintro ⟨k, hk, hp⟩
    cases k with
    | zero => exact .inl hp
    | succ j =>
      refine .inr ⟨j, ?_, ?_⟩
      · simpa using hk
      · simpa using hp
  · rintro (hp | ⟨j, hj, hp⟩)
    · exact ⟨0, by simp, hp⟩
    · refine ⟨j + 1, ?_, ?_⟩
      · simpa using hj
      · simpa using hp

/-- The star helper inherits the prefix-matching characterisation from
    its continuation. -/
theorem matchstarAux_iff_take (ok : Char → Bool) (mh ac : List Char → Bool)
    (hmh : ∀ t, mh t = true ↔ ∃ k ≤ t.length, ac (t.take k) = true) :
    ∀ s, matchstarAux ok mh s = true ↔
      ∃ k ≤ s.length, matchstarAux ok ac (s.take k) = true := by
  intro s
  induction s with
  | nil =>
    rw [show matchstarAux ok mh [] = mh [] from rfl, hmh []]
    simp [matchstarAux, Nat.le_zero]
  | cons x s1 ih =>
    rw [show matchstarAux ok mh (x :: s1) =
      (mh (x :: s1) || (ok x && matchstarAux ok mh s1)) from rfl]
    rw [exists_take_cons (fun t => matchstarAux ok ac t) x s1]
    rw [Bool.or_eq_true, Bool.and_eq_true, hmh (x :: s1), ih]
    rw [exists_take_cons ac x s1]
    rw [show matchstarAux ok ac [] = ac [] from rfl]
    have hstar : ∀ t, matchstarAux ok ac (x :: t) = true ↔
        (ac (x :: t) = true ∨ (ok x = true ∧ matchstarAux ok ac t = true)) := by
      intro t
      rw [show matchstarAux ok ac (x :: t) =
        (ac (x :: t) || (ok x && matchstarAux ok ac t)) from rfl]
      simp [Bool.or_eq_true, Bool.and_eq_true]
    constructor
    · rintro (h | ⟨hok, j, hj, hm⟩)
      · rcases h with h | ⟨j, hj, hp⟩
        · exact .inl h
        · exact .inr ⟨j, hj, (hstar _).mpr (.inl hp)⟩
      · exact .inr ⟨j, hj, (hstar _).mpr (.inr ⟨hok, hm⟩)⟩
    · rintro (h | ⟨j, hj, hm⟩)
      · exact .inl (.inl h)
      · rcases (hstar _).mp hm with hp | ⟨hok, hm2⟩
        · exact .inl (.inr ⟨j, hj, hp⟩)
        · exact .inr ⟨hok, j, hj, hm2⟩

/-- `re.match` on a '$'-free pattern succeeds exactly when the pattern's
    language contains some prefix of the string taken from position 0:
    anchored at the start, unanchored at the end. -/
theorem matchhere_iff_take :
    ∀ (p : List Char), '$' ∉ p → ∀ s : List Char,
      matchhere p s = true ↔ ∃ k ≤ s.length, accepts p (s.take k) = true
  | [], _, s => by
    constructor
    · intro _
      exact ⟨0, Nat.zero_le _, by simp [accepts]⟩
    · intro _
      simp [matchhere]
  | [c], hd, s => by
    have hc : c ≠ '$' := fun h => hd (by simp [h])
    cases s with
    | nil => simp [matchhere, accepts, hc, Nat.le_zero]
    | cons x s1 =>
      rw [exists_take_cons (accepts [c]) x s1]
      have hl : matchhere [c] (x :: s1) = charOk c x := by
        simp [matchhere, hc]
      have hr : ∀ t : List Char, accepts [c] (x :: t) =
          (charOk c x && t.isEmpty) := by
        intro t
        simp [accepts]
      have h0 : accepts [c] [] = false := by simp [accepts]
      rw [hl, h0]
      simp only [hr, Bool.and_eq_true, Bool.false_eq_true, false_or]
      constructor
      · intro hok
        exact ⟨0, Nat.zero_le _, hok, rfl⟩
      · rintro ⟨j, hj, hok, hp⟩
        exact hok
  | c :: c2 :: q, hd, s => by
    have hc : c ≠ '$' := fun h => hd (by simp [h])
    have hd2 : '$' ∉ c2 :: q := fun h => hd (List.mem_cons_of_mem c h)
    by_cases hc2 : c2 = '*'
    · subst hc2
      have hdq : '$' ∉ q := fun h => hd2 (List.mem_cons_of_mem _ h)
      have hl : matchhere (c :: '*' :: q) s =
          matchstarAux (charOk c) (matchhere q) s := by
        simp [matchhere, hc]
      have hr : ∀ t : List Char, accepts (c :: '*' :: q) t =
          matchstarAux (charOk c) (accepts q) t := by
        intro t
        simp [accepts]
      rw [hl]
      simp only [hr]
      exact matchstarAux_iff_take (charOk c) (matchhere q) (accepts q)
        (matchhere_iff_take q hdq) s
    · cases s with
      | nil => simp [matchhere, accepts, hc, hc2, Nat.le_zero]
      | cons x s1 =>
        rw [exists_take_cons (accepts (c :: c2 :: q)) x s1]
        have hl : matchhere (c :: c2 :: q) (x :: s1) =
            (charOk c x && matchhere (c2 :: q) s1) := by
          simp [matchhere, hc, hc2]
        have hr : ∀ t, accepts (c :: c2 :: q) (x :: t) =
            (charOk c x && accepts (c2 :: q) t) := by
          intro t
          simp [accepts, hc2]
        have h0 : accepts (c :: c2 :: q) [] = false := by
          simp [accepts, hc2]
        rw [hl, Bool.and_eq_true, matchhere_iff_take (c2 :: q) hd2 s1, h0]
        simp only [hr, Bool.and_eq_true, Bool.false_eq_true, false_or]
        constructor
        · rintro ⟨hok, k, hk, hp⟩
          exact ⟨k, hk, hok, hp⟩
        · rintro ⟨j, hj, hok, hp⟩
          exact ⟨hok, j, hj, hp⟩

/-- Appending "$" on the string level. -/
theorem toList_append_dollar (i : String) :
    (i ++ "$").toList = i.toList ++ ['$'] := by
  cases i with
  | mk l => rfl

/-- C6: subject/session identifier patterns are matched anchored at the
    start and unanchored at the end — a listed label is kept iff some
    supplied pattern's language contains a prefix of it from position 0 —
    while scan-type patterns are anchored at both ends (the appended '$'
    makes the kept scans exactly the whole-type matches), and a `None`
    scan-type filter keeps every scan of the session. -/
theorem C6_pattern_anchoring (all_sessions ids ts : List String)
    (scans : List Scan)
    (h1 : ∀ i ∈ ids, '$' ∉ i.toList)
    (h2 : ∀ i ∈ ts, '$' ∉ i.toList) :
    (∀ s, s ∈ matching_sessions_regex all_sessions ids ↔
      s ∈ all_sessions ∧ ∃ i ∈ ids, ∃ k ≤ s.toList.length,
        accepts i.toList (s.toList.take k) = true) ∧
    matching_scans scans none = scans ∧
    (∀ sc, sc ∈ matching_scans scans (some ts) ↔
      sc ∈ scans ∧ ∃ i ∈ ts, accepts i.toList sc.type.toList = true) := by
  refine ⟨fun s => ?_, ?_, fun sc => ?_⟩
  · unfold matching_sessions_regex
    rw [List.mem_filter, List.any_eq_true]
    constructor
    · rintro ⟨hs, i, hi, hm⟩
      exact ⟨hs, i, hi,
        (matchhere_iff_take i.toList (h1 i hi) s.toList).mp hm⟩
    · rintro ⟨hs, i, hi, hm⟩
      exact ⟨hs, ⟨i, hi,
        (matchhere_iff_take i.toList (h1 i hi) s.toList).mpr hm⟩⟩
  · unfold matching_scans
    rw [List.filter_eq_self]
    intro a _
    rfl
  · unfold matching_scans
    rw [List.mem_filter, List.any_eq_true]
    constructor
    · rintro ⟨hs, i, hi, hm⟩
      refine ⟨hs, i, hi, ?_⟩
      have hm2 : matchhere (i.toList ++ ['$']) sc.type.toList = true := by
        rw [← toList_append_dollar i]
        exact hm
      rw [matchhere_append_dollar i.toList (h2 i hi) sc.type.toList] at hm2
      exact hm2
    · rintro ⟨hs, i, hi, hm⟩
      refine ⟨hs, ⟨i, hi, ?_⟩⟩
      show re_match (i ++ "$") sc.type = true
      unfold re_match
      rw [toList_append_dollar i,
        matchhere_append_dollar i.toList (h2 i hi) sc.type.toList]
      exact hm

/-- C6 witness: one session pattern, one scan-type pattern, applied at
    concrete lists. -/
theorem C6_pattern_anchoring_witness :
    (∀ s, s ∈ matching_sessions_regex ["MRH060_001_MR01", "XYZ"]
        ["MRH06.*"] ↔
      s ∈ ["MRH060_001_MR01", "XYZ"] ∧ ∃ i ∈ ["MRH06.*"],
        ∃ k ≤ s.toList.length,
          accepts i.toList (s.toList.take k) = true) ∧
    matching_scans [scanOneFmt] none = [scanOneFmt] ∧
    (∀ sc, sc ∈ matching_scans [scanOneFmt] (some ["t1"]) ↔
      sc ∈ [scanOneFmt] ∧ ∃ i ∈ ["t1"],
        accepts i.toList sc.type.toList = true) :=
  C6_pattern_anchoring ["MRH060_001_MR01", "XYZ"] ["MRH06.*"] ["t1"]
    [scanOneFmt] (by decide) (by decide)

/-- C3 witness: a DICOM scan converted to nifti_gz with dcm2niix present
    and a failing subprocess. -/
theorem C3_conversion_failure_recovery_witness :
    ∃ call src_path tmp_dir,
      processScan argsConv "SESS1" envFail none scanDicom =
        .ok ("DICOM",
          [.makedirs (targetDirOf argsConv.subject_dirs
             argsConv.download_dir "SESS1"),
           .downloadDir "DICOM" tmp_dir, call,
           .move src_path (joinPath (targetDirOf argsConv.subject_dirs
             argsConv.download_dir "SESS1")
             ((scanDicom.id ++ "-" ++ sanitize scanDicom.type) ++ "")),
           .rmtree tmp_dir],
          [⟨"SESS1", scanDicom.type, some "nifti_gz"⟩]) ∧
      ∀ rest, processScans argsConv "SESS1" envFail none
          (scanDicom :: rest) =
        Except.map (fun r => (r.1,
          [.makedirs (targetDirOf argsConv.subject_dirs
             argsConv.download_dir "SESS1"),
           .downloadDir "DICOM" tmp_dir, call,
           .move src_path (joinPath (targetDirOf argsConv.subject_dirs
             argsConv.download_dir "SESS1")
             ((scanDicom.id ++ "-" ++ sanitize scanDicom.type) ++ "")),
           .rmtree tmp_dir] ++ r.2.1,
          Warning.mk "SESS1" scanDicom.type (some "nifti_gz") :: r.2.2))
          (processScans argsConv "SESS1" envFail (some "DICOM") rest) :=
  C3_conversion_failure_recovery argsConv "SESS1" envFail none scanDicom
    "DICOM" ".nii.gz" "" "nifti_gz" (some "/usr/bin/dcm2niix") none
    rfl rfl (by decide) rfl (by decide) rfl rfl rfl
    (Or.inl ⟨Or.inr rfl, rfl, rfl⟩)

end Xnatutils
